import Mathlib

/-!
Verification of the gramfix build-asset scripts
(`scripts/generate-app-icon.py` and `scripts/generate-dmg-background.py`)
against their natural-language specification. Python machine integers are
modelled as `ℤ`, Python floats as `ℚ`, and the fallible float division as
an `Option`-returning computation. Python `int(...)` truncates toward zero
and `round(...)` rounds half to even; both are modelled explicitly below.
-/

namespace Gramfix

/-- Python `int(q)` on a float argument: truncation toward zero. -/
def pyInt (q : ℚ) : ℤ := if q < 0 then ⌈q⌉ else ⌊q⌋

/-- Python `round(q)` on a float argument: round half to even. -/
def pyRound (q : ℚ) : ℤ :=
  if q - ⌊q⌋ < 1/2 then ⌊q⌋
  else if 1/2 < q - ⌊q⌋ then ⌊q⌋ + 1
  else if ⌊q⌋ % 2 = 0 then ⌊q⌋ else ⌊q⌋ + 1

/-- An RGBA pixel; each channel is a byte value in the scripts. -/
structure RGBA where
  r : ℤ
  g : ℤ
  b : ℤ
  a : ℤ
deriving DecidableEq, Repr

/-- A color as a triple of channels, matching the Python 3-tuples. -/
abbrev RGB := ℤ × ℤ × ℤ

theorem pyInt_eq_floor (q : ℚ) (h : 0 ≤ q) : pyInt q = ⌊q⌋ := by
  unfold pyInt
  rw [if_neg (not_lt.mpr h)]

theorem pyInt_intCast (n : ℤ) : pyInt (n : ℚ) = n := by
  unfold pyInt
  split <;> simp

/-! ## Gradient renderer (`create_gradient_background`, generate-app-icon.py lines 48-68)

The renderer is row-constant; we model the color it assigns to row `y`.
The Python float division `(y - start_px) / max(1, (end_px - start_px))`
raises on a zero divisor, so the row computation returns an `Option`. -/

/-- Source line 53: `start_px = int(size * start_y)`. -/
def gradientStartPx (size : ℤ) (start_y : ℚ) : ℤ := pyInt ((size : ℚ) * start_y)

/-- Source line 54: `end_px = int(size * end_y)`. -/
def gradientEndPx (size : ℤ) (end_y : ℚ) : ℤ := pyInt ((size : ℚ) * end_y)

/-- The divisor `max(1, (end_px - start_px))` of source line 63. -/
def gradientDenom (size : ℤ) (start_y end_y : ℚ) : ℤ :=
  max 1 (gradientEndPx size end_y - gradientStartPx size start_y)

/-- Color assigned by `create_gradient_background` to row `y`
(source lines 56-66), including the opaque alpha of line 66. -/
def create_gradient_background (size : ℤ) (color1 color2 : RGB) (start_y end_y : ℚ)
    (y : ℤ) : Option RGBA :=
  if y < gradientStartPx size start_y then
    some ⟨color1.1, color1.2.1, color1.2.2, 255⟩
  else if gradientEndPx size end_y < y then
    some ⟨color2.1, color2.2.1, color2.2.2, 255⟩
  else if gradientDenom size start_y end_y = 0 then none
  else
    let t : ℚ := ((y - gradientStartPx size start_y : ℤ) : ℚ) /
      ((gradientDenom size start_y end_y : ℤ) : ℚ)
    some ⟨pyInt ((color1.1 : ℚ) + ((color2.1 : ℚ) - (color1.1 : ℚ)) * t),
          pyInt ((color1.2.1 : ℚ) + ((color2.2.1 : ℚ) - (color1.2.1 : ℚ)) * t),
          pyInt ((color1.2.2 : ℚ) + ((color2.2.2 : ℚ) - (color1.2.2 : ℚ)) * t), 255⟩

/-- Row color as the specification states it, with explicit floors:
`C1` below `⌊s·N⌋`, `C2` above `⌊e·N⌋`, otherwise the per-channel
interpolation at fraction `(y − ⌊s·N⌋)/max(1, ⌊e·N⌋ − ⌊s·N⌋)` truncated
to integer, alpha fully opaque. -/
def specGradientRow (N : ℤ) (c1 c2 : RGB) (s e : ℚ) (y : ℤ) : RGBA :=
  if y < ⌊(N : ℚ) * s⌋ then ⟨c1.1, c1.2.1, c1.2.2, 255⟩
  else if ⌊(N : ℚ) * e⌋ < y then ⟨c2.1, c2.2.1, c2.2.2, 255⟩
  else
    let t : ℚ := ((y - ⌊(N : ℚ) * s⌋ : ℤ) : ℚ) /
      ((max 1 (⌊(N : ℚ) * e⌋ - ⌊(N : ℚ) * s⌋) : ℤ) : ℚ)
    ⟨pyInt ((c1.1 : ℚ) + ((c2.1 : ℚ) - (c1.1 : ℚ)) * t),
     pyInt ((c1.2.1 : ℚ) + ((c2.2.1 : ℚ) - (c1.2.1 : ℚ)) * t),
     pyInt ((c1.2.2 : ℚ) + ((c2.2.2 : ℚ) - (c1.2.2 : ℚ)) * t), 255⟩

theorem gradientStartPx_eq_floor (size : ℤ) (s : ℚ) (hN : 0 ≤ size) (hs : 0 ≤ s) :
    gradientStartPx size s = ⌊(size : ℚ) * s⌋ :=
  pyInt_eq_floor _ (mul_nonneg (by exact_mod_cast hN) hs)

theorem gradientDenom_pos (size : ℤ) (s e : ℚ) : 1 ≤ gradientDenom size s e :=
  le_max_left _ _

/-- C1: for every canvas size `N ≥ 1`, colors, and fractions
`0 ≤ s ≤ e ≤ 1`, the gradient row `y` is `C1` below `⌊s·N⌋`, `C2` above
`⌊e·N⌋`, and otherwise the truncated per-channel interpolation at
fraction `(y − ⌊s·N⌋)/max(1, ⌊e·N⌋ − ⌊s·N⌋)`, with alpha 255. -/
theorem gradient_row_matches_spec (N : ℤ) (c1 c2 : RGB) (s e : ℚ) (y : ℤ)
    (hN : 1 ≤ N) (hs : 0 ≤ s) (hse : s ≤ e) (he : e ≤ 1) :
    create_gradient_background N c1 c2 s e y = some (specGradientRow N c1 c2 s e y) := by
  have hN0 : (0 : ℤ) ≤ N := le_trans (by norm_num) hN
  have hsp : gradientStartPx N s = ⌊(N : ℚ) * s⌋ := gradientStartPx_eq_floor N s hN0 hs
  have hep : gradientEndPx N e = ⌊(N : ℚ) * e⌋ :=
    pyInt_eq_floor _ (mul_nonneg (by exact_mod_cast hN0) (le_trans hs hse))
  have hden : gradientDenom N s e = max 1 (⌊(N : ℚ) * e⌋ - ⌊(N : ℚ) * s⌋) := by
    unfold gradientDenom
    rw [hsp, hep]
  have hd : max 1 (⌊(N : ℚ) * e⌋ - ⌊(N : ℚ) * s⌋) ≠ 0 := by
    have h := le_max_left 1 (⌊(N : ℚ) * e⌋ - ⌊(N : ℚ) * s⌋)
    omega
  unfold create_gradient_background specGradientRow
  rw [hsp, hep, hden]
  rcases lt_or_ge y ⌊(N : ℚ) * s⌋ with h1 | h1
  · rw [if_pos h1, if_pos h1]
  · rw [if_neg (not_lt.mpr h1), if_neg (not_lt.mpr h1)]
    rcases lt_or_ge ⌊(N : ℚ) * e⌋ y with h2 | h2
    · rw [if_pos h2, if_pos h2]
    · rw [if_neg (not_lt.mpr h2), if_neg (not_lt.mpr h2), if_neg hd]

/-- Witness for C1 at a concrete input. -/
theorem gradient_row_matches_spec_witness :
    create_gradient_background 4 (255, 138, 216) (84, 175, 255) 0 (7/10) 2 =
      some (specGradientRow 4 (255, 138, 216) (84, 175, 255) 0 (7/10) 2) :=
  gradient_row_matches_spec 4 (255, 138, 216) (84, 175, 255) 0 (7/10) 2
    (by norm_num) (by norm_num) (by norm_num) (by norm_num)

/-- C10: for all fractions `0 ≤ s ≤ e ≤ 1`, the interpolation divisor is
at least 1 and every row of the gradient is assigned a defined color
(the division never fails). -/
theorem gradient_total (N : ℤ) (c1 c2 : RGB) (s e : ℚ)
    (hs : 0 ≤ s) (hse : s ≤ e) (he : e ≤ 1) :
    1 ≤ gradientDenom N s e ∧
      ∀ y : ℤ, (create_gradient_background N c1 c2 s e y).isSome := by
  refine ⟨gradientDenom_pos N s e, fun y => ?_⟩
  have hd : gradientDenom N s e ≠ 0 := by
    have := gradientDenom_pos N s e
    omega
  unfold create_gradient_background
  rcases lt_or_ge y (gradientStartPx N s) with h1 | h1
  · rw [if_pos h1]
    rfl
  · rw [if_neg (not_lt.mpr h1)]
    rcases lt_or_ge (gradientEndPx N e) y with h2 | h2
    · rw [if_pos h2]
      rfl
    · rw [if_neg (not_lt.mpr h2), if_neg hd]
      rfl

/-- Witness for C10 at a concrete input. -/
theorem gradient_total_witness :
    1 ≤ gradientDenom 1024 0 (7/10) ∧
      ∀ y : ℤ, (create_gradient_background 1024 (255, 138, 216) (84, 175, 255)
        0 (7/10) y).isSome :=
  gradient_total 1024 (255, 138, 216) (84, 175, 255) 0 (7/10)
    (by norm_num) (by norm_num) (by norm_num)

/-! ## Color interpolation (`lerp_color`, generate-dmg-background.py lines 33-35) -/

/-- Source lines 33-35: `tuple(int(c1[i] + (c2[i] - c1[i]) * t) for i in range(3))`. -/
def lerp_color (c1 c2 : RGB) (t : ℚ) : RGB :=
  (pyInt ((c1.1 : ℚ) + ((c2.1 : ℚ) - (c1.1 : ℚ)) * t),
   pyInt ((c1.2.1 : ℚ) + ((c2.2.1 : ℚ) - (c1.2.1 : ℚ)) * t),
   pyInt ((c1.2.2 : ℚ) + ((c2.2.2 : ℚ) - (c1.2.2 : ℚ)) * t))

/-- A color whose three channels are bytes. -/
def validColor (c : RGB) : Prop :=
  0 ≤ c.1 ∧ c.1 ≤ 255 ∧ 0 ≤ c.2.1 ∧ c.2.1 ≤ 255 ∧ 0 ≤ c.2.2 ∧ c.2.2 ≤ 255

instance (c : RGB) : Decidable (validColor c) := by
  unfold validColor
  infer_instance

theorem lerpChannel_between (a b : ℤ) (t : ℚ) (ha : 0 ≤ a) (hb : 0 ≤ b)
    (ht0 : 0 ≤ t) (ht1 : t ≤ 1) :
    min a b ≤ pyInt ((a : ℚ) + ((b : ℚ) - (a : ℚ)) * t) ∧
      pyInt ((a : ℚ) + ((b : ℚ) - (a : ℚ)) * t) ≤ max a b := by
  set v : ℚ := (a : ℚ) + ((b : ℚ) - (a : ℚ)) * t with hv
  have hlow : ((min a b : ℤ) : ℚ) ≤ v := by
    rcases le_total a b with hab | hab
    · rw [min_eq_left hab]
      have : (a : ℚ) ≤ (b : ℚ) := by exact_mod_cast hab
      nlinarith
    · rw [min_eq_right hab]
      have : (b : ℚ) ≤ (a : ℚ) := by exact_mod_cast hab
      nlinarith
  have hhigh : v ≤ ((max a b : ℤ) : ℚ) := by
    rcases le_total a b with hab | hab
    · rw [max_eq_right hab]
      have : (a : ℚ) ≤ (b : ℚ) := by exact_mod_cast hab
      nlinarith
    · rw [max_eq_left hab]
      have : (b : ℚ) ≤ (a : ℚ) := by exact_mod_cast hab
      nlinarith
  have hv0 : 0 ≤ v := by
    have hm : (0 : ℚ) ≤ ((min a b : ℤ) : ℚ) := by exact_mod_cast le_min ha hb
    linarith
  rw [pyInt_eq_floor v hv0]
  constructor
  · exact Int.le_floor.mpr hlow
  · calc ⌊v⌋ ≤ ⌊((max a b : ℤ) : ℚ)⌋ := Int.floor_le_floor hhigh
      _ = max a b := Int.floor_intCast _

theorem lerpChannel_zero (a b : ℤ) : pyInt ((a : ℚ) + ((b : ℚ) - (a : ℚ)) * 0) = a := by
  have h : (a : ℚ) + ((b : ℚ) - (a : ℚ)) * 0 = (a : ℚ) := by ring
  rw [h, pyInt_intCast]

theorem lerpChannel_one (a b : ℤ) : pyInt ((a : ℚ) + ((b : ℚ) - (a : ℚ)) * 1) = b := by
  have h : (a : ℚ) + ((b : ℚ) - (a : ℚ)) * 1 = (b : ℚ) := by ring
  rw [h, pyInt_intCast]

/-- C6: lerp_color channels stay between the input channels, and the
interpolation is exact at t = 0 and t = 1. -/
theorem lerp_color_between (c1 c2 : RGB) (t : ℚ)
    (h1 : validColor c1) (h2 : validColor c2) (ht0 : 0 ≤ t) (ht1 : t ≤ 1) :
    (min c1.1 c2.1 ≤ (lerp_color c1 c2 t).1 ∧ (lerp_color c1 c2 t).1 ≤ max c1.1 c2.1) ∧
    (min c1.2.1 c2.2.1 ≤ (lerp_color c1 c2 t).2.1 ∧
      (lerp_color c1 c2 t).2.1 ≤ max c1.2.1 c2.2.1) ∧
    (min c1.2.2 c2.2.2 ≤ (lerp_color c1 c2 t).2.2 ∧
      (lerp_color c1 c2 t).2.2 ≤ max c1.2.2 c2.2.2) ∧
    lerp_color c1 c2 0 = c1 ∧ lerp_color c1 c2 1 = c2 := by
  obtain ⟨h1r, _, h1g, _, h1b, _⟩ := h1
  obtain ⟨h2r, _, h2g, _, h2b, _⟩ := h2
  refine ⟨lerpChannel_between _ _ t h1r h2r ht0 ht1,
    lerpChannel_between _ _ t h1g h2g ht0 ht1,
    lerpChannel_between _ _ t h1b h2b ht0 ht1, ?_, ?_⟩
  · unfold lerp_color
    rw [lerpChannel_zero, lerpChannel_zero, lerpChannel_zero]
  · unfold lerp_color
    rw [lerpChannel_one, lerpChannel_one, lerpChannel_one]

/-- Witness for C6 at a concrete input. -/
theorem lerp_color_between_witness :
    (min (255 : ℤ) 84 ≤ (lerp_color (255, 138, 216) (84, 175, 255) (1/2)).1 ∧
      (lerp_color (255, 138, 216) (84, 175, 255) (1/2)).1 ≤ max (255 : ℤ) 84) ∧
    (min (138 : ℤ) 175 ≤ (lerp_color (255, 138, 216) (84, 175, 255) (1/2)).2.1 ∧
      (lerp_color (255, 138, 216) (84, 175, 255) (1/2)).2.1 ≤ max (138 : ℤ) 175) ∧
    (min (216 : ℤ) 255 ≤ (lerp_color (255, 138, 216) (84, 175, 255) (1/2)).2.2 ∧
      (lerp_color (255, 138, 216) (84, 175, 255) (1/2)).2.2 ≤ max (216 : ℤ) 255) ∧
    lerp_color (255, 138, 216) (84, 175, 255) 0 = (255, 138, 216) ∧
    lerp_color (255, 138, 216) (84, 175, 255) 1 = (84, 175, 255) :=
  lerp_color_between (255, 138, 216) (84, 175, 255) (1/2)
    (by decide) (by decide) (by norm_num) (by norm_num)

/-! ## Color string parsing (`parse_color`, generate-app-icon.py lines 24-30)

The host language splits `color_str` on the colon and parses the
comma-separated channel substrings to floats; `values` below is the list
`[float(x) for x in parts[1].split(",")]` of source line 28, and the result
models `tuple(int(v * 255) for v in values[:3])` of source line 29. The
`len(parts) == 2` guard holds for any well-formed `tag:v1,v2,v3,v4` string. -/

def parse_color (values : List ℚ) : List ℤ :=
  (values.take 3).map (fun v => pyInt (v * 255))

theorem parse_color_channel (v : ℚ) (h0 : 0 ≤ v) (h1 : v ≤ 1) :
    0 ≤ pyInt (v * 255) ∧ pyInt (v * 255) ≤ 255 := by
  have hnn : 0 ≤ v * 255 := by positivity
  rw [pyInt_eq_floor _ hnn]
  constructor
  · exact Int.le_floor.mpr (by exact_mod_cast hnn)
  · calc ⌊v * 255⌋ ≤ ⌊(255 : ℚ)⌋ := Int.floor_le_floor (by nlinarith)
      _ = 255 := by norm_num

/-- C7: on a four-channel value list with channels in the unit interval,
parse_color keeps the first three channels, scales each by 255 and
truncates, producing integers in the byte range. -/
theorem parse_color_spec (v1 v2 v3 v4 : ℚ)
    (h1 : 0 ≤ v1 ∧ v1 ≤ 1) (h2 : 0 ≤ v2 ∧ v2 ≤ 1)
    (h3 : 0 ≤ v3 ∧ v3 ≤ 1) (h4 : 0 ≤ v4 ∧ v4 ≤ 1) :
    parse_color [v1, v2, v3, v4] = [⌊v1 * 255⌋, ⌊v2 * 255⌋, ⌊v3 * 255⌋] ∧
      ∀ c ∈ parse_color [v1, v2, v3, v4], 0 ≤ c ∧ c ≤ 255 := by
  have e1 : pyInt (v1 * 255) = ⌊v1 * 255⌋ :=
    pyInt_eq_floor _ (mul_nonneg h1.1 (by norm_num))
  have e2 : pyInt (v2 * 255) = ⌊v2 * 255⌋ :=
    pyInt_eq_floor _ (mul_nonneg h2.1 (by norm_num))
  have e3 : pyInt (v3 * 255) = ⌊v3 * 255⌋ :=
    pyInt_eq_floor _ (mul_nonneg h3.1 (by norm_num))
  constructor
  · simp [parse_color, e1, e2, e3]
  · intro c hc
    simp only [parse_color, List.take, List.map, List.mem_cons,
      List.not_mem_nil, or_false] at hc
    rcases hc with h | h | h
    · exact h ▸ parse_color_channel v1 h1.1 h1.2
    · exact h ▸ parse_color_channel v2 h2.1 h2.2
    · exact h ▸ parse_color_channel v3 h3.1 h3.2

/-- Witness for C7 at a concrete input. -/
theorem parse_color_spec_witness :
    parse_color [1, 54098/100000, 84731/100000, 1] =
        [⌊(1 : ℚ) * 255⌋, ⌊(54098/100000 : ℚ) * 255⌋, ⌊(84731/100000 : ℚ) * 255⌋] ∧
      ∀ c ∈ parse_color [1, 54098/100000, 84731/100000, 1], 0 ≤ c ∧ c ≤ 255 :=
  parse_color_spec 1 (54098/100000) (84731/100000) 1
    (by norm_num) (by norm_num) (by norm_num) (by norm_num)

/-! ## Foreground scaling (`main`, generate-app-icon.py lines 121-128) -/

/-- Output canvas size (source line 22). -/
def OUTPUT_SIZE : ℤ := 1024

/-- Source line 122: `new_size = int(OUTPUT_SIZE * scale)`. -/
def new_size (scale : ℚ) : ℤ := pyInt ((OUTPUT_SIZE : ℤ) * scale)

/-- Source line 125: `offset = (OUTPUT_SIZE - new_size) // 2`, Python
floor division. -/
def scaledOffset (scale : ℚ) : ℤ := Int.fdiv (OUTPUT_SIZE - new_size scale) 2

/-- Pixel of the canvas built in source lines 126-127: the scaled
foreground pasted at `(offset, offset)` on a fully transparent canvas. -/
def scaleForeground (fg : ℤ → ℤ → RGBA) (scale : ℚ) (x y : ℤ) : RGBA :=
  if scaledOffset scale ≤ x ∧ x < scaledOffset scale + new_size scale ∧
      scaledOffset scale ≤ y ∧ y < scaledOffset scale + new_size scale then
    fg (x - scaledOffset scale) (y - scaledOffset scale)
  else ⟨0, 0, 0, 0⟩

/-- Counterexample to C2 as stated: at parsed scale 3843/5120 (an exact
binary float, with 1024 · 3843/5120 = 768.6) the code truncates the
scaled side to 768, while the claimed `round(N·f)` is 769. -/
theorem scaled_side_ne_round :
    new_size (3843/5120) ≠ pyRound ((1024 : ℚ) * (3843/5120)) := by
  norm_num [new_size, pyInt, pyRound, OUTPUT_SIZE]

/-- C2 amended: for a parsed scale factor f ≠ 1.0, the foreground is
resized to a square of side `int(N·f)` (truncated toward zero, not
rounded) and centered at integer offset `(N − scaled_size) // 2`; for
0 < f < 1 with an opaque scaled foreground, the pasted canvas is
transparent outside the centered square, opaque inside it, and the
margins on all four sides agree to within one pixel (left = top,
right = bottom, and right exceeds left by at most one). -/
theorem scale_placement (f : ℚ) (fg : ℤ → ℤ → RGBA) (hne : f ≠ 1)
    (h0 : 0 < f) (h1 : f < 1)
    (hop : ∀ x y : ℤ, 0 ≤ x → x < new_size f → 0 ≤ y → y < new_size f →
      (fg x y).a = 255) :
    new_size f = pyInt ((1024 : ℚ) * f) ∧
    scaledOffset f = Int.fdiv (1024 - new_size f) 2 ∧
    (∀ x y : ℤ, (x < scaledOffset f ∨ scaledOffset f + new_size f ≤ x ∨
        y < scaledOffset f ∨ scaledOffset f + new_size f ≤ y) →
      (scaleForeground fg f x y).a = 0) ∧
    (∀ x y : ℤ, scaledOffset f ≤ x → x < scaledOffset f + new_size f →
      scaledOffset f ≤ y → y < scaledOffset f + new_size f →
      (scaleForeground fg f x y).a = 255) ∧
    0 ≤ scaledOffset f ∧
    scaledOffset f ≤ 1024 - new_size f - scaledOffset f ∧
    (1024 - new_size f - scaledOffset f) - scaledOffset f ≤ 1 := by
  have hmf : new_size f = ⌊(1024 : ℚ) * f⌋ := by
    unfold new_size OUTPUT_SIZE
    push_cast
    exact pyInt_eq_floor _ (by nlinarith)
  have hm0 : 0 ≤ new_size f := by
    rw [hmf]
    exact Int.floor_nonneg.mpr (by nlinarith)
  have hm1 : new_size f ≤ 1023 := by
    have : ⌊(1024 : ℚ) * f⌋ < 1024 := Int.floor_lt.mpr (by push_cast; nlinarith)
    omega
  have ho : scaledOffset f = (1024 - new_size f) / 2 := by
    unfold scaledOffset OUTPUT_SIZE
    exact Int.fdiv_eq_ediv _ (by norm_num)
  refine ⟨by unfold new_size OUTPUT_SIZE; push_cast; rfl,
    by unfold scaledOffset OUTPUT_SIZE; rfl, ?_, ?_, ?_, ?_, ?_⟩
  · intro x y h
    have hnc : ¬(scaledOffset f ≤ x ∧ x < scaledOffset f + new_size f ∧
        scaledOffset f ≤ y ∧ y < scaledOffset f + new_size f) := by omega
    unfold scaleForeground
    rw [if_neg hnc]
  · intro x y hx1 hx2 hy1 hy2
    unfold scaleForeground
    rw [if_pos ⟨hx1, hx2, hy1, hy2⟩]
    exact hop _ _ (by omega) (by omega) (by omega) (by omega)
  · omega
  · omega
  · omega

/-- Witness for C2's amended theorem at scale one half with a constant
opaque foreground. -/
theorem scale_placement_witness :
    new_size (1/2) = pyInt ((1024 : ℚ) * (1/2)) ∧
    scaledOffset (1/2) = Int.fdiv (1024 - new_size (1/2)) 2 ∧
    (∀ x y : ℤ, (x < scaledOffset (1/2) ∨ scaledOffset (1/2) + new_size (1/2) ≤ x ∨
        y < scaledOffset (1/2) ∨ scaledOffset (1/2) + new_size (1/2) ≤ y) →
      (scaleForeground (fun _ _ => ⟨255, 255, 255, 255⟩) (1/2) x y).a = 0) ∧
    (∀ x y : ℤ, scaledOffset (1/2) ≤ x → x < scaledOffset (1/2) + new_size (1/2) →
      scaledOffset (1/2) ≤ y → y < scaledOffset (1/2) + new_size (1/2) →
      (scaleForeground (fun _ _ => ⟨255, 255, 255, 255⟩) (1/2) x y).a = 255) ∧
    0 ≤ scaledOffset (1/2) ∧
    scaledOffset (1/2) ≤ 1024 - new_size (1/2) - scaledOffset (1/2) ∧
    (1024 - new_size (1/2) - scaledOffset (1/2)) - scaledOffset (1/2) ≤ 1 :=
  scale_placement (1/2) (fun _ _ => ⟨255, 255, 255, 255⟩)
    (by norm_num) (by norm_num) (by norm_num) (fun _ _ _ _ _ _ => rfl)

/-! ## Curved arrow (`draw_curved_arrow`, generate-dmg-background.py lines 59-83) -/

/-- Brand pink (source line 28). -/
def PINK : RGB := (255, 138, 216)

/-- Brand blue (source line 29). -/
def BLUE : RGB := (84, 175, 255)

/-- Quadratic Bezier point of source lines 74-75. -/
def bezierPoint (p0 pc p1 : ℚ × ℚ) (t : ℚ) : ℚ × ℚ :=
  ((1 - t)^2 * p0.1 + 2 * (1 - t) * t * pc.1 + t^2 * p1.1,
   (1 - t)^2 * p0.2 + 2 * (1 - t) * t * pc.2 + t^2 * p1.2)

/-- Step count of source line 70. -/
def arrowSteps : ℕ := 60

/-- Control point of source lines 65-66: horizontal midpoint of the
endpoints, 160 px above the higher endpoint. -/
def arrowControl (s e : ℚ × ℚ) : ℚ × ℚ :=
  ((s.1 + e.1) / 2, min s.2 e.2 - 80 * 2)

/-- Sampled curve points of source lines 69-76: `t = i / steps` for
`i = 0, ..., steps`. -/
def arrowPoints (s e : ℚ × ℚ) : List (ℚ × ℚ) :=
  (List.range (arrowSteps + 1)).map
    (fun i : ℕ => bezierPoint s (arrowControl s e) e ((i : ℚ) / (arrowSteps : ℚ)))

/-- Stroke color of drawn segment `i` (source lines 79-82):
`t = i / len(points)` and `segment_color = lerp_color(PINK, BLUE, t)`. -/
def arrowSegmentColor (s e : ℚ × ℚ) (i : ℕ) : RGB :=
  lerp_color PINK BLUE ((i : ℚ) / (((arrowPoints s e).length : ℕ) : ℚ))

/-- Colors of the `len(points) - 1` drawn segments (source line 79). -/
def arrowSegmentColors (s e : ℚ × ℚ) : List RGB :=
  (List.range ((arrowPoints s e).length - 1)).map (arrowSegmentColor s e)

theorem getD_map_range {α : Type} (n i : ℕ) (f : ℕ → α) (d : α) (h : i < n) :
    ((List.range n).map f).getD i d = f i := by
  rw [List.getD_eq_getElem?_getD, List.getElem?_map, List.getElem?_range h]
  rfl

theorem arrowPoints_length (s e : ℚ × ℚ) : (arrowPoints s e).length = 61 := by
  unfold arrowPoints arrowSteps
  rw [List.length_map, List.length_range]

/-- Counterexample to C3 as stated: at the script's arrow endpoints,
segment 30 is drawn with the interpolation fraction 30/61 (the code
divides by `len(points)` = 61), which differs from the claimed 30/60
already in the red channel (170 versus 169). -/
theorem arrow_segment_color_ne_spec :
    arrowSegmentColor (400, 280) (680, 280) 30 ≠
      lerp_color PINK BLUE ((30 : ℚ) / 60) := by
  unfold arrowSegmentColor
  rw [arrowPoints_length]
  norm_num [lerp_color, PINK, BLUE, pyInt, Prod.ext_iff]

/-- C3 amended: the renderer samples the quadratic Bezier curve at
exactly 61 evenly spaced parameters i/60 and draws exactly 60 segments,
and segment i is stroked with the pink-to-blue interpolation at fraction
i/61 (the code divides the segment index by the point count 61, not by
the segment count 60). -/
theorem arrow_gradient (s e : ℚ × ℚ) :
    (arrowPoints s e).length = 61 ∧
    (arrowSegmentColors s e).length = 60 ∧
    (∀ i : ℕ, i < 61 → (arrowPoints s e).getD i (0, 0) =
      bezierPoint s (arrowControl s e) e ((i : ℚ) / 60)) ∧
    (∀ i : ℕ, i < 60 → (arrowSegmentColors s e).getD i (0, 0, 0) =
      lerp_color PINK BLUE ((i : ℚ) / 61)) := by
  refine ⟨arrowPoints_length s e, ?_, ?_, ?_⟩
  · unfold arrowSegmentColors
    rw [List.length_map, List.length_range, arrowPoints_length]
  · intro i hi
    unfold arrowPoints
    rw [getD_map_range _ _ _ _ (by unfold arrowSteps; omega : i < arrowSteps + 1)]
    norm_num [arrowSteps]
  · intro i hi
    unfold arrowSegmentColors
    rw [arrowPoints_length,
      getD_map_range _ _ _ _ (by omega : i < 61 - 1)]
    unfold arrowSegmentColor
    rw [arrowPoints_length]
    norm_num

/-- Witness for C3's amended theorem at the script's arrow endpoints and
segment index 30. -/
theorem arrow_gradient_witness :
    (arrowPoints (400, 280) (680, 280)).length = 61 ∧
    (arrowSegmentColors (400, 280) (680, 280)).getD 30 (0, 0, 0) =
      lerp_color PINK BLUE ((30 : ℚ) / 61) :=
  ⟨(arrow_gradient (400, 280) (680, 280)).1,
   (arrow_gradient (400, 280) (680, 280)).2.2.2 30 (by norm_num)⟩

/-! ## Rounded-rectangle mask (`create_rounded_rect_mask`, generate-app-icon.py lines 32-46)

The script builds a fully transparent single-channel canvas (line 34) and
delegates the fill to the imaging library's rounded-rectangle primitive
(lines 41-45) on the box [(0,0), (size-1, size-1)]. That primitive's
documented geometry with corner radius r is the union of the full-height
band r ≤ x ≤ size-1-r, the full-width band r ≤ y ≤ size-1-r, and the
four corner discs of radius r centered r pixels inside each corner. -/

/-- Source line 39: `actual_radius = int(size * 0.2237)`. -/
def actual_radius (size : ℤ) : ℤ := pyInt ((size : ℤ) * (2237/10000 : ℚ))

/-- Membership of pixel (x, y) in the rounded rectangle spanning
[(0,0), (N-1,N-1)] with corner radius r. -/
def insideRoundedRect (N r x y : ℤ) : Prop :=
  (r ≤ x ∧ x ≤ N - 1 - r) ∨ (r ≤ y ∧ y ≤ N - 1 - r) ∨
  (x - r)^2 + (y - r)^2 ≤ r^2 ∨
  (x - (N - 1 - r))^2 + (y - r)^2 ≤ r^2 ∨
  (x - r)^2 + (y - (N - 1 - r))^2 ≤ r^2 ∨
  (x - (N - 1 - r))^2 + (y - (N - 1 - r))^2 ≤ r^2

instance (N r x y : ℤ) : Decidable (insideRoundedRect N r x y) := by
  unfold insideRoundedRect
  infer_instance

/-- Mask pixel value of create_rounded_rect_mask: 0 everywhere off the
rounded rectangle, 255 inside it. The function's radius parameter is
ignored by the source, which recomputes `actual_radius` from the size. -/
def create_rounded_rect_mask (size radius x y : ℤ) : ℤ :=
  if 0 ≤ x ∧ x ≤ size - 1 ∧ 0 ≤ y ∧ y ≤ size - 1 ∧
      insideRoundedRect size (actual_radius size) x y then 255 else 0

/-- C4: for every size N ≥ 10, the mask is 255 at the canvas center
pixel and 0 at pixel (0,0). -/
theorem mask_center_corner (N : ℤ) (hN : 10 ≤ N) :
    create_rounded_rect_mask N (actual_radius N) (N / 2) (N / 2) = 255 ∧
      create_rounded_rect_mask N (actual_radius N) 0 0 = 0 := by
  have hfl : actual_radius N = ⌊(N : ℚ) * (2237/10000)⌋ := by
    unfold actual_radius
    exact pyInt_eq_floor _
      (mul_nonneg (by exact_mod_cast (by omega : (0 : ℤ) ≤ N)) (by norm_num))
  have hr1 : 10000 * actual_radius N ≤ 2237 * N := by
    have h1 : ((actual_radius N : ℤ) : ℚ) ≤ (N : ℚ) * (2237/10000) := by
      rw [hfl]
      exact Int.floor_le _
    have h2 : ((10000 * actual_radius N : ℤ) : ℚ) ≤ ((2237 * N : ℤ) : ℚ) := by
      push_cast
      linarith
    exact_mod_cast h2
  have hr2 : 2237 * N < 10000 * actual_radius N + 10000 := by
    have h1 : (N : ℚ) * (2237/10000) < actual_radius N + 1 := by
      rw [hfl]
      exact Int.lt_floor_add_one _
    have h2 : ((2237 * N : ℤ) : ℚ) < ((10000 * actual_radius N + 10000 : ℤ) : ℚ) := by
      push_cast
      linarith
    exact_mod_cast h2
  have hrge : 2 ≤ actual_radius N := by omega
  have hs1 : 1 ≤ N - 1 - actual_radius N := by omega
  have hs2 : 2 * actual_radius N + 1 ≤ N - 1 - actual_radius N := by omega
  constructor
  · unfold create_rounded_rect_mask
    rw [if_pos]
    refine ⟨by omega, by omega, by omega, by omega, Or.inl ⟨by omega, by omega⟩⟩
  · unfold create_rounded_rect_mask
    rw [if_neg]
    rintro ⟨-, -, -, -, hin⟩
    unfold insideRoundedRect at hin
    rcases hin with ⟨ha, hb⟩ | ⟨ha, hb⟩ | h | h | h | h
    · omega
    · omega
    · nlinarith [h, hrge]
    · nlinarith [h, hs1]
    · nlinarith [h, hs1]
    · nlinarith [h, hs1, hs2, hrge]

/-- Witness for C4 at size 16. -/
theorem mask_center_corner_witness :
    create_rounded_rect_mask 16 (actual_radius 16) (16 / 2) (16 / 2) = 255 ∧
      create_rounded_rect_mask 16 (actual_radius 16) 0 0 = 0 :=
  mask_center_corner 16 (by norm_num)

/-! ## Compositing (`main`, generate-app-icon.py lines 130-139)

Line 132 alpha-composites the foreground over the background with the
imaging library's Porter-Duff source-over operator on straight-alpha
RGBA pixels; line 139 pastes the result onto a fully transparent canvas
through the 8-bit rounded mask, which moves each destination channel
toward the source in proportion to the mask value. Both external
primitives are modelled pixelwise. -/

/-- Porter-Duff source-over compositing of foreground pixel fg over
background pixel bg on straight-alpha byte channels, fractional results
truncated; a fully transparent pair stays transparent. -/
def alpha_composite (bg fg : RGBA) : RGBA :=
  if (fg.a : ℚ) + (bg.a : ℚ) * (255 - (fg.a : ℚ)) / 255 = 0 then ⟨0, 0, 0, 0⟩
  else
    ⟨pyInt (((fg.r : ℚ) * (fg.a : ℚ) + (bg.r : ℚ) * (bg.a : ℚ) * (255 - (fg.a : ℚ)) / 255) /
        ((fg.a : ℚ) + (bg.a : ℚ) * (255 - (fg.a : ℚ)) / 255)),
     pyInt (((fg.g : ℚ) * (fg.a : ℚ) + (bg.g : ℚ) * (bg.a : ℚ) * (255 - (fg.a : ℚ)) / 255) /
        ((fg.a : ℚ) + (bg.a : ℚ) * (255 - (fg.a : ℚ)) / 255)),
     pyInt (((fg.b : ℚ) * (fg.a : ℚ) + (bg.b : ℚ) * (bg.a : ℚ) * (255 - (fg.a : ℚ)) / 255) /
        ((fg.a : ℚ) + (bg.a : ℚ) * (255 - (fg.a : ℚ)) / 255)),
     pyInt ((fg.a : ℚ) + (bg.a : ℚ) * (255 - (fg.a : ℚ)) / 255)⟩

/-- Image.paste of src over dest through an 8-bit mask value m: each
destination channel moves toward the source channel in proportion
m/255 (full copy at 255, no change at 0). -/
def pasteMask (dest src : RGBA) (m : ℤ) : RGBA :=
  ⟨pyInt ((dest.r : ℚ) + ((src.r : ℚ) - (dest.r : ℚ)) * (m : ℚ) / 255),
   pyInt ((dest.g : ℚ) + ((src.g : ℚ) - (dest.g : ℚ)) * (m : ℚ) / 255),
   pyInt ((dest.b : ℚ) + ((src.b : ℚ) - (dest.b : ℚ)) * (m : ℚ) / 255),
   pyInt ((dest.a : ℚ) + ((src.a : ℚ) - (dest.a : ℚ)) * (m : ℚ) / 255)⟩

/-- Pixel of the composed icon on the scale = 1.0 path (lines 130-139):
foreground over background, then pasted through the rounded mask onto a
fully transparent canvas. -/
def composeIcon (bg fg : ℤ → ℤ → RGBA) (x y : ℤ) : RGBA :=
  pasteMask ⟨0, 0, 0, 0⟩ (alpha_composite (bg x y) (fg x y))
    (create_rounded_rect_mask OUTPUT_SIZE (actual_radius OUTPUT_SIZE) x y)

/-- The foreground alone pasted through the rounded mask onto a fully
transparent canvas. -/
def clipByMask (fg : ℤ → ℤ → RGBA) (x y : ℤ) : RGBA :=
  pasteMask ⟨0, 0, 0, 0⟩ (fg x y)
    (create_rounded_rect_mask OUTPUT_SIZE (actual_radius OUTPUT_SIZE) x y)

theorem alpha_composite_opaque_fg (bg fg : RGBA) (h : fg.a = 255) :
    alpha_composite bg fg = fg := by
  obtain ⟨r, g, b, a⟩ := fg
  simp only at h
  subst h
  unfold alpha_composite
  norm_num [pyInt, Int.ceil_intCast, Int.floor_intCast]

/-- C5: with scale 1.0 and a fully opaque foreground covering the
canvas, the composed icon equals the foreground clipped by the rounded
mask alone, pixel for pixel. -/
theorem compose_opaque_roundtrip (bg fg : ℤ → ℤ → RGBA)
    (hop : ∀ x y : ℤ, (fg x y).a = 255) :
    ∀ x y : ℤ, composeIcon bg fg x y = clipByMask fg x y := by
  intro x y
  unfold composeIcon clipByMask
  rw [alpha_composite_opaque_fg _ _ (hop x y)]

/-- Witness for C5 with constant background and opaque foreground at the
top-center pixel. -/
theorem compose_opaque_roundtrip_witness :
    composeIcon (fun _ _ => ⟨1, 2, 3, 255⟩) (fun _ _ => ⟨9, 8, 7, 255⟩) 512 0 =
      clipByMask (fun _ _ => ⟨9, 8, 7, 255⟩) 512 0 :=
  compose_opaque_roundtrip (fun _ _ => ⟨1, 2, 3, 255⟩) (fun _ _ => ⟨9, 8, 7, 255⟩)
    (fun _ _ => rfl) 512 0

/-! ## Glow renderer (`draw_glow`, generate-dmg-background.py lines 44-57) -/

/-- Radii of the concentric circles of source line 49,
`range(radius, 0, -3)`: radius, radius-3, ... while positive. -/
def glowRadii (radius : ℤ) : List ℤ :=
  (List.range ((radius + 2) / 3).toNat).map (fun k : ℕ => radius - 3 * (k : ℤ))

/-- Alpha of the circle with radius r, source line 50:
`int(255 * intensity * (r / radius) ** 2)`. -/
def glowAlpha (radius : ℤ) (intensity : ℚ) (r : ℤ) : ℤ :=
  pyInt (255 * intensity * ((r : ℚ) / (radius : ℚ))^2)

/-- Circles drawn by draw_glow, as (radius, alpha) pairs in draw order
(source lines 49-55). -/
def draw_glow_circles (radius : ℤ) (intensity : ℚ) : List (ℤ × ℤ) :=
  (glowRadii radius).map (fun r => (r, glowAlpha radius intensity r))

/-- Whether the filled circle of radius r centered at (cx, cy) covers
pixel (x, y). -/
def circleCovers (cx cy r x y : ℤ) : Prop := (x - cx)^2 + (y - cy)^2 ≤ r^2

instance (cx cy r x y : ℤ) : Decidable (circleCovers cx cy r x y) := by
  unfold circleCovers
  infer_instance

/-- Glow overlay pixel: the circles are drawn outermost first on a fully
transparent layer (lines 46-55), so the last drawn covering circle wins;
uncovered pixels stay transparent. -/
def glowLayer (cx cy radius : ℤ) (intensity : ℚ) (color : RGB) (x y : ℤ) : RGBA :=
  match ((glowRadii radius).filter (fun r => decide (circleCovers cx cy r x y))).getLast? with
  | some r => ⟨color.1, color.2.1, color.2.2, glowAlpha radius intensity r⟩
  | none => ⟨0, 0, 0, 0⟩

/-- Result pixel of draw_glow (source line 57): the glow overlay
alpha-composited onto the working image. -/
def draw_glow (img : ℤ → ℤ → RGBA) (cx cy radius : ℤ) (intensity : ℚ)
    (color : RGB) (x y : ℤ) : RGBA :=
  alpha_composite (img x y) (glowLayer cx cy radius intensity color x y)

/-- C8: for max radius R > 0 and intensity I in the unit interval, the
glow draws a nonempty sequence of circles starting at radius R,
descending by 3 while positive, each with alpha 255·I·(r/R)² truncated
to integer, and the overlay is alpha-composited onto the working
canvas. -/
theorem glow_contract (R : ℤ) (I : ℚ) (hR : 0 < R) (hI0 : 0 ≤ I) (hI1 : I ≤ 1) :
    0 < (draw_glow_circles R I).length ∧
    (draw_glow_circles R I).getD 0 (0, 0) = (R, glowAlpha R I R) ∧
    (∀ p ∈ draw_glow_circles R I, 0 < p.1 ∧ p.1 ≤ R ∧
      p.2 = pyInt (255 * I * ((p.1 : ℚ) / (R : ℚ))^2)) ∧
    (∀ i : ℕ, i + 1 < (draw_glow_circles R I).length →
      ((draw_glow_circles R I).getD (i + 1) (0, 0)).1 =
        ((draw_glow_circles R I).getD i (0, 0)).1 - 3) ∧
    (∀ (img : ℤ → ℤ → RGBA) (cx cy x y : ℤ) (color : RGB),
      draw_glow img cx cy R I color x y =
        alpha_composite (img x y) (glowLayer cx cy R I color x y)) := by
  have hmm : draw_glow_circles R I = (List.range ((R + 2) / 3).toNat).map
      (fun k : ℕ => (R - 3 * (k : ℤ), glowAlpha R I (R - 3 * (k : ℤ)))) := by
    unfold draw_glow_circles glowRadii
    rw [List.map_map]
    rfl
  have hlen : (draw_glow_circles R I).length = ((R + 2) / 3).toNat := by
    rw [hmm, List.length_map, List.length_range]
  have hn : 1 ≤ ((R + 2) / 3).toNat := by omega
  refine ⟨by omega, ?_, ?_, ?_, fun img cx cy x y color => rfl⟩
  · rw [hmm, getD_map_range _ _ _ _ (by omega : 0 < ((R + 2) / 3).toNat)]
    norm_num
  · intro p hp
    rw [hmm] at hp
    obtain ⟨k, hk, rfl⟩ := List.mem_map.mp hp
    rw [List.mem_range] at hk
    have hk3 : 3 * (k : ℤ) < R := by omega
    exact ⟨by omega, by omega, rfl⟩
  · intro i hi
    rw [hlen] at hi
    rw [hmm, getD_map_range _ _ _ _ (by omega : i + 1 < ((R + 2) / 3).toNat),
      getD_map_range _ _ _ _ (by omega : i < ((R + 2) / 3).toNat)]
    push_cast
    ring

/-- Witness for C8 at the script's glow radius 400 and intensity 0.12. -/
theorem glow_contract_witness :
    0 < (draw_glow_circles 400 (12/100)).length ∧
    (draw_glow_circles 400 (12/100)).getD 0 (0, 0) = (400, glowAlpha 400 (12/100) 400) :=
  ⟨(glow_contract 400 (12/100) (by norm_num) (by norm_num) (by norm_num)).1,
   (glow_contract 400 (12/100) (by norm_num) (by norm_num) (by norm_num)).2.1⟩

/-! ## Missing-foreground error (`main`, generate-app-icon.py lines 97-105) -/

/-- Composed output of a successful icon run: the saved file name of
line 142 and its image. -/
structure ComposedOutput where
  name : String
  image : ℤ → ℤ → RGBA

/-- Source line 98: the PNG files found in the assets directory. -/
def fg_files (assets : List String) : List String :=
  assets.filter (fun f => f.endsWith ".png")

/-- Foreground selection and composition of source lines 97-143,
abstracted over the directory listing and the image loader: when no PNG
is present the run stops with the diagnostic of line 100 and process
exit code 1 (line 101) before any composed output exists; otherwise the
first PNG is loaded, composited and saved. -/
def iconCompose (assets : List String) (load : String → ℤ → ℤ → RGBA)
    (background : ℤ → ℤ → RGBA) : Except (ℤ × String) ComposedOutput :=
  match fg_files assets with
  | [] => Except.error (1, "Error: No foreground PNG found in Assets folder")
  | f :: _ => Except.ok ⟨"AppIcon-composed.png", composeIcon background (load f)⟩

/-- C9: a run whose assets directory holds no raster image file (in
particular none the code recognizes, i.e. ending in .png) stops with the
error diagnostic and exit code 1 and produces no composed output. -/
theorem no_foreground_errors (assets : List String)
    (load : String → ℤ → ℤ → RGBA) (background : ℤ → ℤ → RGBA)
    (h : ∀ f ∈ assets, ¬ f.endsWith ".png") :
    iconCompose assets load background =
      Except.error (1, "Error: No foreground PNG found in Assets folder") := by
  have hf : fg_files assets = [] := by
    unfold fg_files
    rw [List.filter_eq_nil_iff]
    intro a ha
    simpa using h a ha
  unfold iconCompose
  rw [hf]

/-- Witness for C9 with an empty assets directory. -/
theorem no_foreground_errors_witness :
    iconCompose [] (fun _ _ _ => ⟨0, 0, 0, 0⟩) (fun _ _ => ⟨0, 0, 0, 0⟩) =
      Except.error (1, "Error: No foreground PNG found in Assets folder") :=
  no_foreground_errors [] (fun _ _ _ => ⟨0, 0, 0, 0⟩) (fun _ _ => ⟨0, 0, 0, 0⟩)
    (fun f hf => absurd hf (List.not_mem_nil f))

end Gramfix
